import Mathlib

/-!
# Verification of the cocogitto release-orchestration core

Shallow embedding of `src/conventional/bump.rs` and of the bump
orchestration functions of `src/lib.rs`, together with theorems settling
the specification claims about commit classification, automatic
version-increment resolution, the guarded bump workflow and the hook
pipeline.
-/

namespace Cog

/-! ## Semantic versions

Mirror of `semver::Version` (an external crate): numeric triple plus
pre-release and build-metadata strings.  The crate's total order compares
major, minor and patch numerically, then pre-release identifiers by the
SemVer precedence rules (an empty pre-release outranks any non-empty one;
dot-separated identifiers compare pairwise, purely numeric identifiers
before alphanumeric ones), and finally build metadata the same way except
that an empty build ranks lowest. -/

structure SemVer where
  major : Nat
  minor : Nat
  patch : Nat
  pre : String
  build : String
  deriving DecidableEq, Repr

/-- Split a character list at every occurrence of `sep` (the string
operations of the Lean core library recurse by well-founded measures,
which the kernel cannot evaluate; the embedding therefore works on
character lists). -/
def splitSep (sep : Char) : List Char → List (List Char)
  | [] => [[]]
  | c :: cs =>
    match splitSep sep cs with
    | [] => if c = sep then [[], []] else [[c]]
    | group :: rest =>
      if c = sep then [] :: group :: rest else (c :: group) :: rest

/-- Split at the first occurrence of `sep`, when there is one. -/
def splitFirst (sep : Char) : List Char → Option (List Char × List Char)
  | [] => none
  | c :: cs =>
    if c = sep then some ([], cs)
    else (splitFirst sep cs).map (fun p => (c :: p.1, p.2))

/-- Lexical comparison of character lists. -/
def charListCmp : List Char → List Char → Ordering
  | [], [] => .eq
  | [], _ :: _ => .lt
  | _ :: _, [] => .gt
  | a :: as, b :: bs =>
    match compare a b with
    | .eq => charListCmp as bs
    | o => o

/-- Comparison of one dot-separated identifier, following
`semver::Version`: two numeric identifiers compare by length then
lexically (numeric order, given no leading zeros), a numeric identifier
precedes an alphanumeric one, two alphanumeric ones compare lexically. -/
def identCmp (a b : List Char) : Ordering :=
  let aNum := a.all Char.isDigit
  let bNum := b.all Char.isDigit
  if aNum && bNum then
    if a.length ≠ b.length then compare a.length b.length else charListCmp a b
  else if aNum then .lt
  else if bNum then .gt
  else charListCmp a b

/-- Pairwise comparison of identifier lists; a strict prefix ranks lower. -/
def identListCmp : List (List Char) → List (List Char) → Ordering
  | [], [] => .eq
  | [], _ :: _ => .lt
  | _ :: _, [] => .gt
  | a :: as, b :: bs =>
    match identCmp a b with
    | .eq => identListCmp as bs
    | o => o

/-- `semver::Prerelease` ordering: empty (a release) outranks non-empty. -/
def preCmp (a b : String) : Ordering :=
  match a.data.isEmpty, b.data.isEmpty with
  | true, true => .eq
  | true, false => .gt
  | false, true => .lt
  | false, false => identListCmp (splitSep '.' a.data) (splitSep '.' b.data)

/-- `semver::BuildMetadata` ordering: empty ranks lowest. -/
def buildCmp (a b : String) : Ordering :=
  match a.data.isEmpty, b.data.isEmpty with
  | true, true => .eq
  | true, false => .lt
  | false, true => .gt
  | false, false => identListCmp (splitSep '.' a.data) (splitSep '.' b.data)

def SemVer.cmp (a b : SemVer) : Ordering :=
  match compare a.major b.major with
  | .eq =>
    match compare a.minor b.minor with
    | .eq =>
      match compare a.patch b.patch with
      | .eq =>
        match preCmp a.pre b.pre with
        | .eq => buildCmp a.build b.build
        | o => o
      | o => o
    | o => o
  | o => o

/-- `Version::le`: not strictly greater. -/
def SemVer.le (a b : SemVer) : Bool := a.cmp b ≠ .gt

/-- `Version::lt`. -/
def SemVer.lt (a b : SemVer) : Bool := a.cmp b = .lt

def SemVer.zero : SemVer := ⟨0, 0, 0, "", ""⟩

/-! ## Tags, commits and errors -/

/-- Mirror of `git::tag::Tag` as used by the bump code: a semantic
version, an optional package name (monorepo scope) and an optional
object id anchoring the tag to a commit (`oid`).  Object ids are
modelled as `Nat`. -/
structure Tag where
  version : SemVer
  package : Option String
  oid : Option Nat
  deriving DecidableEq, Repr

/-- `Tag::default()`: version `0.0.0`, no package, no oid. -/
def Tag.default : Tag := ⟨SemVer.zero, none, none⟩

/-- `Tag::create(version, package)`: a freshly derived, unanchored tag. -/
def Tag.create (v : SemVer) (package : Option String) : Tag :=
  ⟨v, package, none⟩

def SemVer.display (v : SemVer) : String :=
  toString v.major ++ "." ++ toString v.minor ++ "." ++ toString v.patch
    ++ (if v.pre.isEmpty then "" else "-" ++ v.pre)
    ++ (if v.build.isEmpty then "" else "+" ++ v.build)

/-- Modelled from the spec: the human-facing display/`prefixed_tag`
string of a marker — the version, prefixed for package-scoped markers
with the package name (the `Display` impl lives in the git module, not
under `src/`). -/
def Tag.display (t : Tag) : String :=
  (match t.package with
   | some p => p ++ "-"
   | none => "") ++ t.version.display

/-- Commit kinds from `conventional_commit_parser::commit::CommitType`,
restricted to the constructors the bump code inspects. -/
inductive CommitType where
  | feature
  | bugFix
  | other (name : String)
  deriving DecidableEq, Repr

/-- Mirror of `ConventionalCommit`: the fields read by the classifier. -/
structure ConventionalCommit where
  commit_type : CommitType
  is_breaking_change : Bool
  deriving DecidableEq, Repr

/-- Mirror of `conventional::commit::Commit`: wraps the parsed message. -/
structure Commit where
  message : ConventionalCommit
  deriving DecidableEq, Repr

/-- A raw git commit as the bump code sees it: `message()` yields an
optional string. -/
structure RawCommit where
  message : Option String
  deriving DecidableEq, Repr

/-- `git::error::TagError`, restricted to the cases `lib.rs` matches on. -/
inductive TagError where
  | noTag
  | other (msg : String)
  deriving DecidableEq, Repr

/-- `conventional::error::BumpError`: `NoCommitFound` plus the error
kinds converted into it by `?` in the bump code. -/
inductive BumpError where
  | noCommitFound
  | noTag
  | gitError (msg : String)
  | semverError (msg : String)
  deriving DecidableEq, Repr

/-- `VersionIncrement`: the closed set of bump requests. -/
inductive VersionIncrement where
  | major
  | minor
  | patch
  | auto
  | manual (version : String)
  deriving DecidableEq, Repr

/-! ## Repository model

The version-control backend is an external collaborator; the fields
below record exactly the queries the bump code performs.  `latestTag`
is the repository-wide latest tag (`get_latest_tag`, failing with
`TagError::NoTag` when `none`), `latestPackageTag` the per-package one,
`commitRange oid` the commits of the revspec `"{oid}.."`,
`parseCommit` the external conventional-commit parser
(`Commit::from_git_commit`), `none` on a parse failure, and
`packageHasCommits` whether `get_commit_range_for_packages` finds any
commit touching the package (a `Some` changelog). -/

structure RepoHistory where
  latestTag : Option Tag
  latestPackageTag : String → Option Tag
  firstCommit : Nat
  headCommit : Nat
  commitRange : Nat → List RawCommit
  parseCommit : RawCommit → Option ConventionalCommit
  packageHasCommits : String → Bool

/-- Modelled from the spec: `Repository::get_latest_tag_oid` (git
module, not under `src/`) — per §6 the backend's repository-wide
`latest_marker` lookup is `Optional`, and as `lib.rs` shows for
`get_latest_tag`, an absent tag surfaces as a `TagError::NoTag` error,
converted by `?` into a `BumpError`; when the tag exists its commit id
is returned. -/
def RepoHistory.getLatestTagOid (repo : RepoHistory) : Except BumpError Nat :=
  match repo.latestTag with
  | none => .error .noTag
  | some t => .ok (t.oid.getD 0)

/-! ## `src/conventional/bump.rs` -/

/-- Character-list prefix test. -/
def isPrefixOfChars : List Char → List Char → Bool
  | [], _ => true
  | _ :: _, [] => false
  | a :: as, b :: bs => a = b && isPrefixOfChars as bs

/-- `str::starts_with("Merge ")`, the merge-commit test of the source. -/
def startsWithMerge (s : String) : Bool :=
  isPrefixOfChars "Merge ".data s.data

/-- The numeric value of a non-empty all-digit character list. -/
def digitsToNat (l : List Char) : Option Nat :=
  if l.isEmpty then none
  else if l.all Char.isDigit then
    some (l.foldl (fun n c => n * 10 + (c.toNat - 48)) 0)
  else none

/-- Modelled from the spec: the external semver parser
(`semver::Version::parse`) for the standard
`major.minor.patch[-pre][+build]` grammar; `none` when the numeric core
is malformed. -/
def parseVersion (s : String) : Option SemVer :=
  let (core, build) :=
    match splitFirst '+' s.data with
    | none => (s.data, ([] : List Char))
    | some p => p
  let (nums, pre) :=
    match splitFirst '-' core with
    | none => (core, ([] : List Char))
    | some p => p
  match (splitSep '.' nums).map digitsToNat with
  | [some a, some b, some c] =>
    some ⟨a, b, c, String.mk pre, String.mk build⟩
  | _ => none

/-- `reset_metadata`: clear build metadata, pre-release and `oid`. -/
def Tag.resetMetadata (t : Tag) : Tag :=
  { t with
    version := { t.version with build := "", pre := "" }
    oid := none }

/-- `manual_bump`: parse the requested version into a clone of the tag.
Note the source does not call `reset_metadata` here. -/
def Tag.manualBump (t : Tag) (version : String) : Except BumpError Tag :=
  match parseVersion version with
  | none => .error (.semverError version)
  | some v => .ok { t with version := v }

/-- `major_bump`. -/
def Tag.majorBump (t : Tag) : Tag :=
  Tag.resetMetadata
    { t with version := { t.version with
        major := t.version.major + 1, minor := 0, patch := 0 } }

/-- `minor_bump`. -/
def Tag.minorBump (t : Tag) : Tag :=
  Tag.resetMetadata
    { t with version := { t.version with
        minor := t.version.minor + 1, patch := 0 } }

/-- `patch_bump`. -/
def Tag.patchBump (t : Tag) : Tag :=
  Tag.resetMetadata
    { t with version := { t.version with patch := t.version.patch + 1 } }

/-- `version_increment_from_commit_history`: priority classification of
the commit window against the tag's current major version. -/
def versionIncrementFromCommitHistory (t : Tag) (commits : List Commit) :
    Except BumpError VersionIncrement :=
  let isMajorBump :=
    t.version.major ≠ 0 &&
      commits.any (fun c => c.message.is_breaking_change)
  let isMinorBump :=
    commits.any (fun c => c.message.commit_type = CommitType.feature)
  let isPatchBump :=
    commits.any (fun c => c.message.commit_type = CommitType.bugFix)
  if isMajorBump then .ok .major
  else if isMinorBump then .ok .minor
  else if isPatchBump then .ok .patch
  else .error .noCommitFound

/-- The non-merge commits of the window starting at `startOid` that the
external parser accepts: commits whose message starts with `"Merge "`
are filtered out first, then parse failures are dropped by
`filter_map(Result::ok)`. -/
def conventionalCommitsIn (repo : RepoHistory) (startOid : Nat) : List Commit :=
  ((repo.commitRange startOid).filter
      (fun c => !(startsWithMerge (c.message.getD "")))).filterMap
    (fun c => (repo.parseCommit c).map (fun m => ⟨m⟩))

/-- Modelled from the spec: `VersionIncrement::display_history` (in
`conventional/version.rs`, not under `src/`) only reports the window on
standard output; it is a non-failing log step. -/
def displayHistory (_commits : List RawCommit) : Except BumpError Unit :=
  .ok ()

/-- `create_version_from_commit_history`: anchor the window (the
package's latest tag oid, falling back to the first commit, when the tag
is package-scoped; the repository-wide latest tag oid — with `?`, hence
no fallback — otherwise), collect the window, drop merge commits, parse,
classify, and apply the decision as an arithmetic bump.  The `.ok .auto`
and `.ok (.manual _)` cases are `unreachable!()` in the source; the
classifier provably never returns them. -/
def Tag.createVersionFromCommitHistory (t : Tag) (repo : RepoHistory) :
    Except BumpError Tag := do
  let changelogStartOid ←
    match t.package with
    | none => repo.getLatestTagOid
    | some p =>
      pure (((repo.latestPackageTag p).bind Tag.oid).getD repo.firstCommit)
  let rawCommits := (repo.commitRange changelogStartOid).filter
    (fun c => !(startsWithMerge (c.message.getD "")))
  let _ ← displayHistory rawCommits
  let conventionalCommits := rawCommits.filterMap
    (fun c => (repo.parseCommit c).map (fun m => (⟨m⟩ : Commit)))
  let incrementType ← versionIncrementFromCommitHistory t conventionalCommits
  match incrementType with
  | .major => pure t.majorBump
  | .minor => pure t.minorBump
  | .patch => pure t.patchBump
  | _ => .error .noCommitFound

/-- `Tag::bump`: dispatch over the requested increment. -/
def Tag.bump (t : Tag) (increment : VersionIncrement) (repo : RepoHistory) :
    Except BumpError Tag :=
  match increment with
  | .major => .ok t.majorBump
  | .minor => .ok t.minorBump
  | .patch => .ok t.patchBump
  | .auto => t.createVersionFromCommitHistory repo
  | .manual version => t.manualBump version

end Cog

namespace Cog

/-! ## `src/lib.rs`: the release orchestrator

The orchestration functions are embedded as pure functions from an
environment (the repository state plus the outcomes of the external
collaborators) to a trace of repository side effects together with an
outcome.  Hook execution is external; its result per hook kind and
scope is an oracle field of the environment, while the hook *selection*
logic of `run_hooks` is modelled separately below (`resolvedHooks`). -/

inductive HookType where
  | preBump
  | postBump
  deriving DecidableEq, Repr

/-- One observable repository mutation or output of a bump run. -/
inductive Effect where
  | changelogWrite (package : Option String)
  | stageAll
  | commitCreated (message : String)
  | tagCreated (tag : Tag)
  | hookRun (hookType : HookType) (package : Option String)
  | stashed (tag : Tag)
  | errorLog (cause : String) (version : String) (stashNumber : Nat)
  | printed (out : String)
  deriving DecidableEq, Repr

/-- Result of an orchestration run: success, a propagated error
(`bail!`/`?`), or process termination (`exit(1)` in
`stash_failed_version`). -/
inductive Outcome where
  | ok
  | err (msg : String)
  | exited (code : Nat)
  deriving DecidableEq, Repr

/-- The environment of a bump run: repository state, working-tree
statuses, current branch shorthand (`none` on a detached HEAD), the
configured branch allow-list with the external glob matcher, the
configured package names (`SETTINGS.packages`, in iteration order), and
the oracle giving each `run_hooks` invocation's outcome per hook kind
and package scope. -/
structure Env where
  repo : RepoHistory
  statuses : List String
  branch : Option String
  branchWhitelist : List String
  globMatch : String → String → Bool
  packages : List String
  hookOutcome : HookType → Option String → Except String Unit

/-- `pre_bump_checks`: fail on a dirty working tree; then, when the
branch allow-list is non-empty *and* a branch shorthand exists, fail
unless some glob pattern matches the branch. -/
def preBumpChecks (env : Env) : Except String Unit :=
  if !env.statuses.isEmpty then
    .error "working tree has unstaged or uncommitted changes"
  else if !env.branchWhitelist.isEmpty then
    match env.branch with
    | some branch =>
      if env.branchWhitelist.any (fun pat => env.globMatch pat branch) then
        .ok ()
      else
        .error ("No patterns matched for branch " ++ branch
          ++ ", bump is not allowed")
    | none => .ok ()
  else .ok ()

def bumpErrorMessage : BumpError → String
  | .noCommitFound => "failed to bump version: no conventional commit found"
  | .noTag => "failed to bump version: no tag found"
  | .gitError msg => msg
  | .semverError msg => "invalid semver: " ++ msg

/-- `Prerelease::new` applied to the candidate when a pre-release
argument is given (its charset validation, an external-crate detail, is
not modelled: every string is accepted). -/
def applyPre (v : SemVer) (preRelease : Option String) : SemVer :=
  match preRelease with
  | none => v
  | some p => { v with pre := p }

/-- `stash_failed_version`: stash the staged work under the candidate
tag, log a structured `PreHookError` naming the cause, the tag and the
stash number, and terminate the process with status 1. -/
def stashFailedVersion (tag : Tag) (cause : String) :
    List Effect × Outcome :=
  ([.stashed tag, .errorLog cause tag.display 0], .exited 1)

/-- `create_version` (repository-wide bump).  The monotonicity guard of
the source reads `next_version.version.le(&current_tag.version) ||
next_version.eq(&current_version)`; `current_version` is a free
identifier there (the error message names "current one", i.e. the
current tag fetched just above), and under that reading the second
disjunct is subsumed by `le`, so the guard is embedded as `le` against
the current tag's version. -/
def createVersion (env : Env) (increment : VersionIncrement)
    (preRelease : Option String) (hooksConfig : Option String)
    (dryRun : Bool) : List Effect × Outcome :=
  match preBumpChecks env with
  | .error e => ([], .err e)
  | .ok _ =>
    -- get_latest_tag, falling back to Tag::default() on TagError::NoTag
    let currentTag := env.repo.latestTag.getD Tag.default
    match currentTag.bump increment env.repo with
    | .error e => ([], .err (bumpErrorMessage e))
    | .ok next =>
      if SemVer.le next.version currentTag.version then
        ([], .err "SemVer Error: version MUST be greater than current one")
      else
        let nextVersion := applyPre next.version preRelease
        let tag := Tag.create nextVersion none
        if dryRun then
          ([.printed tag.display], .ok)
        else
          let _ := hooksConfig
          let effs := [Effect.changelogWrite none,
            .hookRun .preBump none, .stageAll]
          match env.hookOutcome .preBump none with
          | .error cause =>
            let (stashEffs, outcome) := stashFailedVersion tag cause
            (effs ++ stashEffs, outcome)
          | .ok _ =>
            let effs := effs
              ++ [Effect.commitCreated ("chore(version): " ++ tag.display),
                .tagCreated tag, .hookRun .postBump none]
            match env.hookOutcome .postBump none with
            | .error e => (effs, .err e)
            | .ok _ => (effs, .ok)

/-- `create_package_version` (single package-scoped bump). -/
def createPackageVersion (env : Env) (packageName : String)
    (increment : VersionIncrement) (preRelease : Option String)
    (hooksConfig : Option String) (dryRun : Bool) :
    List Effect × Outcome :=
  match preBumpChecks env with
  | .error e => ([], .err e)
  | .ok _ =>
    let currentTag := (env.repo.latestPackageTag packageName).getD Tag.default
    match currentTag.bump increment env.repo with
    | .error e => ([], .err (bumpErrorMessage e))
    | .ok next =>
      if SemVer.le next.version currentTag.version then
        ([], .err "SemVer Error: version MUST be greater than current one")
      else
        let nextVersion := applyPre next.version preRelease
        let tag := Tag.create nextVersion (some packageName)
        if dryRun then
          ([.printed tag.display], .ok)
        else if !(env.repo.packageHasCommits packageName) then
          ([], .err ("No commit matching package " ++ packageName ++ " path"))
        else
          let _ := hooksConfig
          let effs := [Effect.changelogWrite (some packageName),
            .hookRun .preBump (some packageName), .stageAll]
          match env.hookOutcome .preBump (some packageName) with
          | .error cause =>
            let (stashEffs, outcome) := stashFailedVersion tag cause
            (effs ++ stashEffs, outcome)
          | .ok _ =>
            let effs := effs
              ++ [Effect.commitCreated ("chore(version): " ++ tag.display),
                .tagCreated tag, .hookRun .postBump (some packageName)]
            match env.hookOutcome .postBump (some packageName) with
            | .error e => (effs, .err e)
            | .ok _ => (effs, .ok)

/-- Modelled from the spec: the `Version`-based
`VersionIncrement::bump` used by `create_monorepo_version`
(`conventional/version.rs`, not under `src/`): arithmetic requests
increment the respective field and zero the lower ones; `Auto` resolves
the repository-wide commit window per §4.2 (last marker, else first
commit), classifies it against the current major version and applies
the decision; `Manual` parses the text. -/
def VersionIncrement.bumpVersion (incr : VersionIncrement)
    (current : SemVer) (repo : RepoHistory) : Except BumpError SemVer :=
  match incr with
  | .major => .ok ⟨current.major + 1, 0, 0, "", ""⟩
  | .minor => .ok ⟨current.major, current.minor + 1, 0, "", ""⟩
  | .patch => .ok ⟨current.major, current.minor, current.patch + 1, "", ""⟩
  | .manual s =>
    match parseVersion s with
    | some v => .ok v
    | none => .error (.semverError s)
  | .auto =>
    let start := (repo.latestTag.bind Tag.oid).getD repo.firstCommit
    let commits := conventionalCommitsIn repo start
    match versionIncrementFromCommitHistory ⟨current, none, none⟩ commits with
    | .ok .major => .ok ⟨current.major + 1, 0, 0, "", ""⟩
    | .ok .minor => .ok ⟨current.major, current.minor + 1, 0, "", ""⟩
    | .ok .patch => .ok ⟨current.major, current.minor, current.patch + 1, "", ""⟩
    | .ok _ => .error .noCommitFound
    | .error e => .error e

/-- Result of one package's iteration inside `create_monorepo_version`:
continue (with the accumulated bump record, or `none` when the package
printed and was skipped), propagate an error out of the whole function
(`bail!`/`?`), or terminate the process (`stash_failed_version`). -/
inductive StepResult where
  | next (bump : Option (String × Tag))
  | bail (e : String)
  | exited
  deriving DecidableEq, Repr

/-- One package's pass through the first `create_monorepo_version`
loop: fetch the package's current version (0.0.0 fallback), auto-bump
it, apply the monotonicity guard, apply the pre-release, build the
candidate tag; on a dry run print it and continue; skip the package
when no commit touches it; otherwise write its changelog, run its
pre-bump hooks, stage, and either stash-and-exit on hook failure or
accumulate the bump record. -/
def monorepoStep (env : Env) (preRelease : Option String) (dryRun : Bool)
    (packageName : String) : List Effect × StepResult :=
  let currentVersion :=
    ((env.repo.latestPackageTag packageName).getD Tag.default).version
  match VersionIncrement.bumpVersion .auto currentVersion env.repo with
  | .error e => ([], .bail (bumpErrorMessage e))
  | .ok next =>
    if SemVer.le next currentVersion then
      ([], .bail "SemVer Error: version MUST be greater than current one")
    else
      let nextVersion := applyPre next preRelease
      let tag := Tag.create nextVersion (some packageName)
      if dryRun then
        ([.printed tag.display], .next none)
      else if !(env.repo.packageHasCommits packageName) then
        ([.printed ("No commit found to bump package " ++ packageName
          ++ ", skipping.")], .next none)
      else
        let effs := [Effect.changelogWrite (some packageName),
          .hookRun .preBump (some packageName), .stageAll]
        match env.hookOutcome .preBump (some packageName) with
        | .error cause =>
          let (stashEffs, _) := stashFailedVersion tag cause
          (effs ++ stashEffs, .exited)
        | .ok _ => (effs, .next (some (packageName, tag)))

/-- Result of the whole first loop. -/
inductive LoopResult where
  | done (bumps : List (String × Tag))
  | bailed (e : String)
  | exitedLoop
  deriving DecidableEq, Repr

/-- The first `create_monorepo_version` loop over the configured
packages. -/
def monorepoLoop (env : Env) (preRelease : Option String) (dryRun : Bool) :
    List String → List Effect × LoopResult
  | [] => ([], .done [])
  | packageName :: rest =>
    match monorepoStep env preRelease dryRun packageName with
    | (effs, .bail e) => (effs, .bailed e)
    | (effs, .exited) => (effs, .exitedLoop)
    | (effs, .next bump) =>
      match monorepoLoop env preRelease dryRun rest with
      | (effs2, .done bumps) =>
        (effs ++ effs2,
          .done (match bump with
                 | some b => b :: bumps
                 | none => bumps))
      | (effs2, r) => (effs ++ effs2, r)

/-- The second `create_monorepo_version` loop: per accumulated bump,
create the tag and run post-bump hooks; a post-bump hook failure
propagates (`?`) and stops the loop. -/
def monorepoPostLoop (env : Env) :
    List (String × Tag) → List Effect × Outcome
  | [] => ([], .ok)
  | (packageName, tag) :: rest =>
    let effs := [Effect.tagCreated tag, .hookRun .postBump (some packageName)]
    match env.hookOutcome .postBump (some packageName) with
    | .error e => (effs, .err e)
    | .ok _ =>
      match monorepoPostLoop env rest with
      | (effs2, o) => (effs ++ effs2, o)

/-- `create_monorepo_version`: preflight once, run the first loop over
every configured package, then — unconditionally, even on a dry run —
create the single aggregate commit `"chore(version): Bump"` and run the
tagging/post-hook loop over the accumulated bumps. -/
def createMonorepoVersion (env : Env) (preRelease : Option String)
    (hooksConfig : Option String) (dryRun : Bool) :
    List Effect × Outcome :=
  match preBumpChecks env with
  | .error e => ([], .err e)
  | .ok _ =>
    let _ := hooksConfig
    match monorepoLoop env preRelease dryRun env.packages with
    | (effs, .bailed e) => (effs, .err e)
    | (effs, .exitedLoop) => (effs, .exited 1)
    | (effs, .done bumps) =>
      let effs := effs ++ [Effect.commitCreated "chore(version): Bump"]
      match monorepoPostLoop env bumps with
      | (effs2, o) => (effs ++ effs2, o)

/-! ## `run_hooks`: hook selection -/

/-- Modelled from the spec: a package's configured hooks
(`MonoRepoPackage` getters live in the settings module, not under
`src/`; per §6 the configuration exposes, per scope and hook kind and
optionally per named profile, an ordered sequence of hook command
templates). -/
structure PackageHooks where
  hooks : HookType → List String
  profileHooks : String → HookType → List String

/-- Modelled from the spec: the global configuration's hook lists, per
hook kind and optionally per named profile (settings module, not under
`src/`). -/
structure HookSettings where
  hooks : HookType → List String
  profileHooks : String → HookType → List String

/-- The hook-selection match of `run_hooks`: dispatch purely on which
of the package and profile arguments are present. -/
def resolvedHooks (settings : HookSettings) (package : Option PackageHooks)
    (hookProfile : Option String) (hookType : HookType) : List String :=
  match package, hookProfile with
  | none, some profile => settings.profileHooks profile hookType
  | some pkg, some profile => pkg.profileHooks profile hookType
  | some pkg, none => pkg.hooks hookType
  | none, none => settings.hooks hookType

/-- The resolution precedence as the spec words it: with both a package
and a profile given, the first non-empty source among package+profile
hooks, package default hooks, global profile hooks, global default
hooks. -/
def specResolvedHooks (settings : HookSettings) (package : PackageHooks)
    (profile : String) (hookType : HookType) : List String :=
  if !(package.profileHooks profile hookType).isEmpty then
    package.profileHooks profile hookType
  else if !(package.hooks hookType).isEmpty then
    package.hooks hookType
  else if !(settings.profileHooks profile hookType).isEmpty then
    settings.profileHooks profile hookType
  else
    settings.hooks hookType

end Cog

namespace Cog

/-! ## Concrete environments used by counterexamples and witnesses -/

/-- A repository with no tags and no commits. -/
def emptyRepo : RepoHistory where
  latestTag := none
  latestPackageTag := fun _ => none
  firstCommit := 0
  headCommit := 0
  commitRange := fun _ => []
  parseCommit := fun _ => none
  packageHasCommits := fun _ => false

/-- A repository with no tag whose full history holds one parsable
`feat` commit. -/
def repoNoTagFeature : RepoHistory where
  latestTag := none
  latestPackageTag := fun _ => none
  firstCommit := 0
  headCommit := 5
  commitRange := fun _ => [⟨some "feat: add things"⟩]
  parseCommit := fun _ => some ⟨.feature, false⟩
  packageHasCommits := fun _ => true

/-! ## C1: automatic bump resolution rules -/

/-- **C1**: automatic bump resolution returns `Major` iff the current
major version is non-zero and some commit is breaking; otherwise `Minor`
iff some commit is a `Feature`; otherwise `Patch` iff some commit is a
`BugFix`; otherwise it fails with `NoCommitFound` — and in particular a
pre-1.0 window of breaking commits without features or bug fixes yields
the failure, not a major bump. -/
theorem c1_auto_resolution_rules (t : Tag) (commits : List Commit) :
    (versionIncrementFromCommitHistory t commits = .ok .major ↔
      (t.version.major ≠ 0 ∧ ∃ c ∈ commits, c.message.is_breaking_change = true)) ∧
    (versionIncrementFromCommitHistory t commits = .ok .minor ↔
      (¬(t.version.major ≠ 0 ∧ ∃ c ∈ commits, c.message.is_breaking_change = true) ∧
        ∃ c ∈ commits, c.message.commit_type = CommitType.feature)) ∧
    (versionIncrementFromCommitHistory t commits = .ok .patch ↔
      (¬(t.version.major ≠ 0 ∧ ∃ c ∈ commits, c.message.is_breaking_change = true) ∧
        ¬(∃ c ∈ commits, c.message.commit_type = CommitType.feature) ∧
        ∃ c ∈ commits, c.message.commit_type = CommitType.bugFix)) ∧
    (versionIncrementFromCommitHistory t commits = .error .noCommitFound ↔
      (¬(t.version.major ≠ 0 ∧ ∃ c ∈ commits, c.message.is_breaking_change = true) ∧
        ¬(∃ c ∈ commits, c.message.commit_type = CommitType.feature) ∧
        ¬(∃ c ∈ commits, c.message.commit_type = CommitType.bugFix))) ∧
    (t.version.major = 0 →
      (∃ c ∈ commits, c.message.is_breaking_change = true) →
      (∀ c ∈ commits, c.message.commit_type ≠ CommitType.feature) →
      (∀ c ∈ commits, c.message.commit_type ≠ CommitType.bugFix) →
      versionIncrementFromCommitHistory t commits = .error .noCommitFound) := by
  refine ⟨?_, ?_, ?_, ?_, ?_⟩ <;>
    simp only [versionIncrementFromCommitHistory] <;>
    split_ifs with h1 h2 h3 <;>
    simp_all only [Bool.and_eq_true, decide_eq_true_eq, List.any_eq_true,
      Bool.not_eq_true, ne_eq, not_false_iff, Except.ok.injEq, Except.error.injEq,
      reduceCtorEq, iff_true, iff_false, not_and, not_exists, not_forall,
      not_true, not_false_eq_true, true_and, and_true, true_iff, false_iff,
      implies_true, forall_true_left] <;>
    try tauto

/-- Witness for C1 at a concrete pre-1.0 breaking-only window. -/
theorem c1_auto_resolution_rules_witness :
    versionIncrementFromCommitHistory ⟨⟨0, 3, 0, "", ""⟩, none, none⟩
      [⟨⟨.other "refactor", true⟩⟩] = .error .noCommitFound :=
  (c1_auto_resolution_rules ⟨⟨0, 3, 0, "", ""⟩, none, none⟩
      [⟨⟨.other "refactor", true⟩⟩]).2.2.2.2 rfl
    ⟨⟨⟨.other "refactor", true⟩⟩, by simp, rfl⟩
    (by intro c hc; simp at hc; subst hc; simp)
    (by intro c hc; simp at hc; subst hc; simp)

/-! ## C3: arithmetic bumps -/

/-- **C3**: each arithmetic bump increments its field, zeroes the lower
fields, clears pre-release and build metadata, unsets the oid, and keeps
the package. -/
theorem c3_arithmetic_bump_shape (t : Tag) :
    t.majorBump = ⟨⟨t.version.major + 1, 0, 0, "", ""⟩, t.package, none⟩ ∧
    t.minorBump =
      ⟨⟨t.version.major, t.version.minor + 1, 0, "", ""⟩, t.package, none⟩ ∧
    t.patchBump =
      ⟨⟨t.version.major, t.version.minor, t.version.patch + 1, "", ""⟩,
        t.package, none⟩ :=
  ⟨rfl, rfl, rfl⟩

/-! ## C4: derived markers and the backend anchor -/

/-- **C4 counterexample**: a `Manual` bump of an anchored marker keeps
the anchor — `manual_bump` clones the tag and replaces only the version,
so the derived marker's `oid` is still `some 42`, not `none`. -/
theorem c4_counterexample :
    Tag.bump ⟨⟨1, 0, 0, "", ""⟩, none, some 42⟩ (.manual "2.0.0") emptyRepo =
      .ok ⟨⟨2, 0, 0, "", ""⟩, none, some 42⟩ ∧
    (some 42 : Option Nat) ≠ none := by
  exact ⟨rfl, by decide⟩

/-- The history-driven resolution only ever returns an arithmetic bump
of the input tag, whose `oid` is cleared by `reset_metadata`. -/
theorem createVersionFromCommitHistory_oid_none (t : Tag) (repo : RepoHistory)
    (t' : Tag) (h : t.createVersionFromCommitHistory repo = .ok t') :
    t'.oid = none := by
  unfold Tag.createVersionFromCommitHistory at h
  simp only [displayHistory, bind, Except.bind, pure, Except.pure] at h
  repeat' split at h
  all_goals try exact Except.noConfusion h
  all_goals injection h with h
  all_goals subst h
  all_goals rfl

/-- **C4 (amended)**: markers derived by `Major`, `Minor`, `Patch` or
`Auto` bumps have an unset backend anchor; a `Manual` bump instead
preserves the input marker's anchor unchanged. -/
theorem c4_amended_anchor (t : Tag) (repo : RepoHistory) :
    (∀ t', t.bump .major repo = .ok t' → t'.oid = none) ∧
    (∀ t', t.bump .minor repo = .ok t' → t'.oid = none) ∧
    (∀ t', t.bump .patch repo = .ok t' → t'.oid = none) ∧
    (∀ t', t.bump .auto repo = .ok t' → t'.oid = none) ∧
    (∀ s t', t.bump (.manual s) repo = .ok t' → t'.oid = t.oid) := by
  refine ⟨?_, ?_, ?_, ?_, ?_⟩
  · intro t' h
    simp only [Tag.bump, Except.ok.injEq] at h
    subst h; rfl
  · intro t' h
    simp only [Tag.bump, Except.ok.injEq] at h
    subst h; rfl
  · intro t' h
    simp only [Tag.bump, Except.ok.injEq] at h
    subst h; rfl
  · intro t' h
    exact createVersionFromCommitHistory_oid_none t repo t' h
  · intro s t' h
    simp only [Tag.bump, Tag.manualBump] at h
    split at h
    · simp at h
    · simp only [Except.ok.injEq] at h
      subst h; rfl

/-- Witness for C4 (amended) at concrete inputs. -/
theorem c4_amended_anchor_witness :
    (Tag.majorBump ⟨⟨1, 2, 3, "rc", "b1"⟩, some "pkg", some 7⟩).oid = none ∧
    (⟨⟨2, 0, 0, "", ""⟩, none, some 42⟩ : Tag).oid =
      (⟨⟨1, 0, 0, "", ""⟩, none, some 42⟩ : Tag).oid :=
  ⟨(c4_amended_anchor ⟨⟨1, 2, 3, "rc", "b1"⟩, some "pkg", some 7⟩ emptyRepo).1
      _ rfl,
   (c4_amended_anchor ⟨⟨1, 0, 0, "", ""⟩, none, some 42⟩ emptyRepo).2.2.2.2
      "2.0.0" _ rfl⟩

end Cog

namespace Cog

/-! ## C10: detached HEAD skips the branch allow-list check -/

/-- **C10**: when the repository has no current branch shorthand, the
preflight branch allow-list check is skipped entirely: with a clean
working tree, `pre_bump_checks` succeeds regardless of a non-empty
configured allow-list. -/
theorem c10_detached_head_skips_branch_check (env : Env)
    (hclean : env.statuses = []) (hdetached : env.branch = none) :
    preBumpChecks env = .ok () := by
  simp [preBumpChecks, hclean, hdetached]

/-- An environment on a detached HEAD with a non-empty allow-list whose
glob matcher never matches. -/
def envDetached : Env where
  repo := repoNoTagFeature
  statuses := []
  branch := none
  branchWhitelist := ["main", "release-*"]
  globMatch := fun _ _ => false
  packages := []
  hookOutcome := fun _ _ => .ok ()

/-- Witness for C10 on a concrete detached-HEAD environment. -/
theorem c10_detached_head_skips_branch_check_witness :
    preBumpChecks envDetached = .ok () :=
  c10_detached_head_skips_branch_check envDetached rfl rfl

/-! ## C8: hook selection -/

/-- A package with default hooks but an empty profile hook list. -/
def pkgHooksOnlyDefault : PackageHooks where
  hooks := fun _ => ["cargo publish"]
  profileHooks := fun _ _ => []

/-- Global settings with both default and profile hooks configured. -/
def globalHookSettings : HookSettings where
  hooks := fun _ => ["echo global"]
  profileHooks := fun _ _ => ["echo global profile"]

/-- **C8 counterexample**: with both a package and a profile given and
an empty package+profile hook list, `run_hooks` selects no hooks at all
instead of falling through to the package default hooks as the claimed
first-non-empty precedence chain would. -/
theorem c8_counterexample :
    resolvedHooks globalHookSettings (some pkgHooksOnlyDefault)
      (some "hotfix") .preBump = [] ∧
    specResolvedHooks globalHookSettings pkgHooksOnlyDefault
      "hotfix" .preBump = ["cargo publish"] ∧
    resolvedHooks globalHookSettings (some pkgHooksOnlyDefault)
      (some "hotfix") .preBump ≠
      specResolvedHooks globalHookSettings pkgHooksOnlyDefault
        "hotfix" .preBump := by
  refine ⟨rfl, rfl, ?_⟩
  decide

/-- **C8 (amended)**: `run_hooks` dispatches purely on which of the
package and profile arguments are present — package+profile hooks when
both are given, package default hooks when only a package, global
profile hooks when only a profile, global default hooks otherwise —
the selected single source is used as-is, never merged with and never
falling through to another source, so an empty package+profile list
yields no hooks. -/
theorem c8_amended_dispatch (settings : HookSettings) (pkg : PackageHooks)
    (profile : String) (hookType : HookType) :
    resolvedHooks settings (some pkg) (some profile) hookType =
      pkg.profileHooks profile hookType ∧
    resolvedHooks settings (some pkg) none hookType = pkg.hooks hookType ∧
    resolvedHooks settings none (some profile) hookType =
      settings.profileHooks profile hookType ∧
    resolvedHooks settings none none hookType = settings.hooks hookType ∧
    (pkg.profileHooks profile hookType = [] →
      resolvedHooks settings (some pkg) (some profile) hookType = []) :=
  ⟨rfl, rfl, rfl, rfl, fun h => h⟩

/-- Witness for C8 (amended) at the concrete configuration. -/
theorem c8_amended_dispatch_witness :
    resolvedHooks globalHookSettings (some pkgHooksOnlyDefault)
      (some "hotfix") .preBump = [] :=
  (c8_amended_dispatch globalHookSettings pkgHooksOnlyDefault
    "hotfix" .preBump).2.2.2.2 rfl

/-! ## C9: unparsable and merge commits contribute no bump signal -/

/-- **C9**: in `Auto` resolution every window commit that fails
conventional parsing — and every commit whose message starts with
`"Merge "` — is discarded before classification, so a window of only
such commits resolves to the `NoCommitFound` failure, for the
repository-wide window as well as for a package-scoped one. -/
theorem c9_unparsable_commits_discarded (t : Tag) (repo : RepoHistory) :
    (∀ lt, t.package = none → repo.latestTag = some lt →
      (∀ c ∈ repo.commitRange (lt.oid.getD 0),
        startsWithMerge (c.message.getD "") = true ∨ repo.parseCommit c = none) →
      t.createVersionFromCommitHistory repo = .error .noCommitFound) ∧
    (∀ p, t.package = some p →
      (∀ c ∈ repo.commitRange
          (((repo.latestPackageTag p).bind Tag.oid).getD repo.firstCommit),
        startsWithMerge (c.message.getD "") = true ∨ repo.parseCommit c = none) →
      t.createVersionFromCommitHistory repo = .error .noCommitFound) := by
  constructor
  · intro lt hp hlt hwin
    unfold Tag.createVersionFromCommitHistory
    simp only [hp, RepoHistory.getLatestTagOid, hlt, displayHistory,
      bind, Except.bind, pure, Except.pure]
    have hnil : ((repo.commitRange (lt.oid.getD 0)).filter
        (fun c => !(startsWithMerge (c.message.getD "")))).filterMap
        (fun c => (repo.parseCommit c).map (fun m => (⟨m⟩ : Commit))) = [] := by
      rw [List.filterMap_eq_nil_iff]
      intro c hc
      have hmem := List.mem_filter.mp hc
      rcases hwin c hmem.1 with hmerge | hparse
      · rw [hmerge] at hmem
        simp at hmem
      · simp [hparse]
    rw [hnil]
    simp [versionIncrementFromCommitHistory]
  · intro p hp hwin
    unfold Tag.createVersionFromCommitHistory
    simp only [hp, displayHistory, bind, Except.bind, pure, Except.pure]
    have hnil : ((repo.commitRange
        (((repo.latestPackageTag p).bind Tag.oid).getD repo.firstCommit)).filter
        (fun c => !(startsWithMerge (c.message.getD "")))).filterMap
        (fun c => (repo.parseCommit c).map (fun m => (⟨m⟩ : Commit))) = [] := by
      rw [List.filterMap_eq_nil_iff]
      intro c hc
      have hmem := List.mem_filter.mp hc
      rcases hwin c hmem.1 with hmerge | hparse
      · rw [hmerge] at hmem
        simp at hmem
      · simp [hparse]
    rw [hnil]
    simp [versionIncrementFromCommitHistory]

/-- A tagged repository whose window since the tag holds one merge
commit (which even parses) and one unparsable commit. -/
def repoUnparsableWindow : RepoHistory where
  latestTag := some ⟨⟨1, 0, 0, "", ""⟩, none, some 3⟩
  latestPackageTag := fun _ => none
  firstCommit := 0
  headCommit := 9
  commitRange := fun _ => [⟨some "Merge branch dev"⟩, ⟨some "wip stuff"⟩]
  parseCommit := fun c =>
    if startsWithMerge (c.message.getD "") then some ⟨.feature, false⟩ else none
  packageHasCommits := fun _ => false

/-- Witness for C9 on the concrete non-empty window. -/
theorem c9_unparsable_commits_discarded_witness :
    Tag.createVersionFromCommitHistory ⟨⟨1, 0, 0, "", ""⟩, none, some 3⟩
      repoUnparsableWindow = .error .noCommitFound :=
  (c9_unparsable_commits_discarded ⟨⟨1, 0, 0, "", ""⟩, none, some 3⟩
      repoUnparsableWindow).1 ⟨⟨1, 0, 0, "", ""⟩, none, some 3⟩ rfl rfl
    (by decide)

end Cog

namespace Cog

/-! ## C7: the `Auto` commit window anchor -/

/-- Resolution of an `Auto` bump over the window starting at `start`:
classify the parse-surviving non-merge commits and apply the decision
as the corresponding arithmetic bump, propagating the failure. -/
def resolveWindow (t : Tag) (repo : RepoHistory) (start : Nat) :
    Except BumpError Tag :=
  match versionIncrementFromCommitHistory t (conventionalCommitsIn repo start) with
  | .ok .major => .ok t.majorBump
  | .ok .minor => .ok t.minorBump
  | .ok .patch => .ok t.patchBump
  | .ok _ => .error .noCommitFound
  | .error e => .error e

/-- **C7 counterexample**: in a repository with no tag at all whose
history holds a `Feature` commit, the claim's repo-wide first-commit
fallback would classify the window as `Minor` and bump — but the code
propagates the failed repository-wide tag lookup instead. -/
theorem c7_counterexample :
    Tag.bump Tag.default .auto repoNoTagFeature = .error .noTag ∧
    versionIncrementFromCommitHistory Tag.default
      (conventionalCommitsIn repoNoTagFeature repoNoTagFeature.firstCommit) =
      .ok .minor :=
  ⟨rfl, rfl⟩

/-- **C7 (amended)**: an `Auto` bump anchors its window at the
package-specific last tag's oid — falling back to the repository's
first commit — when the marker is package-scoped; for a repo-wide
marker it anchors at the repository-wide last tag's oid and, when no
such tag exists, fails with the propagated tag-lookup error rather
than falling back to the first commit.  The resulting decision is
applied exactly as an explicit Major/Minor/Patch bump and a
`NoCommitFound` failure is propagated unchanged. -/
theorem c7_amended_window_anchor (t : Tag) (repo : RepoHistory) :
    (t.package = none → repo.latestTag = none →
      Tag.bump t .auto repo = .error .noTag) ∧
    (∀ lt, t.package = none → repo.latestTag = some lt →
      Tag.bump t .auto repo = resolveWindow t repo (lt.oid.getD 0)) ∧
    (∀ p, t.package = some p →
      Tag.bump t .auto repo =
        resolveWindow t repo
          (((repo.latestPackageTag p).bind Tag.oid).getD repo.firstCommit)) ∧
    (∀ start,
      (versionIncrementFromCommitHistory t (conventionalCommitsIn repo start) =
          .error .noCommitFound →
        resolveWindow t repo start = .error .noCommitFound) ∧
      (versionIncrementFromCommitHistory t (conventionalCommitsIn repo start) =
          .ok .major → resolveWindow t repo start = .ok t.majorBump) ∧
      (versionIncrementFromCommitHistory t (conventionalCommitsIn repo start) =
          .ok .minor → resolveWindow t repo start = .ok t.minorBump) ∧
      (versionIncrementFromCommitHistory t (conventionalCommitsIn repo start) =
          .ok .patch → resolveWindow t repo start = .ok t.patchBump)) := by
  refine ⟨?_, ?_, ?_, ?_⟩
  · intro hp hlt
    simp only [Tag.bump, Tag.createVersionFromCommitHistory, hp,
      RepoHistory.getLatestTagOid, hlt, displayHistory,
      bind, Except.bind, pure, Except.pure]
  · intro lt hp hlt
    simp only [Tag.bump, Tag.createVersionFromCommitHistory, hp,
      RepoHistory.getLatestTagOid, hlt, displayHistory,
      bind, Except.bind, pure, Except.pure, resolveWindow,
      conventionalCommitsIn]
    split
    · rename_i heq
      rw [heq]
    · rename_i v heq
      rw [heq]
      cases v <;> rfl
  · intro p hp
    simp only [Tag.bump, Tag.createVersionFromCommitHistory, hp,
      displayHistory, bind, Except.bind, pure, Except.pure, resolveWindow,
      conventionalCommitsIn]
    split
    · rename_i heq
      rw [heq]
    · rename_i v heq
      rw [heq]
      cases v <;> rfl
  · intro start
    refine ⟨?_, ?_, ?_, ?_⟩ <;> intro h <;> simp only [resolveWindow, h]

/-- Witness for C7 (amended): the repo-wide no-tag error case and the
package-scoped first-commit fallback case, at concrete inputs. -/
theorem c7_amended_window_anchor_witness :
    Tag.bump Tag.default .auto repoNoTagFeature = .error .noTag ∧
    Tag.bump ⟨⟨1, 0, 0, "", ""⟩, some "pkg", none⟩ .auto repoNoTagFeature =
      resolveWindow ⟨⟨1, 0, 0, "", ""⟩, some "pkg", none⟩ repoNoTagFeature
        (((repoNoTagFeature.latestPackageTag "pkg").bind Tag.oid).getD
          repoNoTagFeature.firstCommit) :=
  ⟨(c7_amended_window_anchor Tag.default repoNoTagFeature).1 rfl rfl,
   (c7_amended_window_anchor ⟨⟨1, 0, 0, "", ""⟩, some "pkg", none⟩
      repoNoTagFeature).2.2.1 "pkg" rfl⟩

end Cog


namespace Cog

/-! ## C2: the monotonicity guard -/

/-- Commit-creating and tag-creating effects (the mutations the
monotonicity guard and the rollback path must precede). -/
def isCommitOrTagEffect : Effect → Bool
  | .commitCreated _ => true
  | .tagCreated _ => true
  | _ => false

/-- No iteration of the first monorepo loop ever creates a commit or a
tag: those mutations only happen after the loop. -/
theorem monorepoStep_no_commit_tag (env : Env) (preRelease : Option String)
    (dryRun : Bool) (packageName : String) (effs : List Effect)
    (r : StepResult)
    (h : monorepoStep env preRelease dryRun packageName = (effs, r)) :
    ∀ e ∈ effs, isCommitOrTagEffect e = false := by
  simp only [monorepoStep, stashFailedVersion] at h
  repeat' split at h
  all_goals injection h with h1 h2
  all_goals subst h1
  all_goals intro e he
  all_goals cases e <;> simp_all [isCommitOrTagEffect]

/-- Lifting of `monorepoStep_no_commit_tag` to the whole first loop. -/
theorem monorepoLoop_no_commit_tag (env : Env) (preRelease : Option String)
    (dryRun : Bool) :
    ∀ (pkgs : List String) (effs : List Effect) (r : LoopResult),
      monorepoLoop env preRelease dryRun pkgs = (effs, r) →
      ∀ e ∈ effs, isCommitOrTagEffect e = false := by
  intro pkgs
  induction pkgs with
  | nil =>
    intro effs r h e he
    unfold monorepoLoop at h
    injection h with h1 h2
    subst h1
    simp at he
  | cons name rest ih =>
    intro effs r h e he
    unfold monorepoLoop at h
    rcases hstep : monorepoStep env preRelease dryRun name with ⟨seffs, sres⟩
    rw [hstep] at h
    rcases sres with b | eb | _
    · rcases hrec : monorepoLoop env preRelease dryRun rest with ⟨reffs, rres⟩
      rw [hrec] at h
      rcases rres with bumps | e2 | _ <;>
        (injection h with h1 h2; subst h1) <;>
        rcases List.mem_append.mp he with hs | hr
      all_goals
        first
        | exact monorepoStep_no_commit_tag env preRelease dryRun name
            seffs _ hstep e hs
        | exact ih reffs _ hrec e hr
    · injection h with h1 h2
      subst h1
      exact monorepoStep_no_commit_tag env preRelease dryRun name
        seffs _ hstep e he
    · injection h with h1 h2
      subst h1
      exact monorepoStep_no_commit_tag env preRelease dryRun name
        seffs _ hstep e he

/-- The `Auto` resolution of the `Version`-based bump always yields a
candidate strictly greater than the current version (it is an
arithmetic bump of it), so the monorepo guard's rejection condition is
never satisfiable. -/
theorem bumpVersion_auto_gt (cur : SemVer) (repo : RepoHistory) (v : SemVer)
    (h : VersionIncrement.bumpVersion .auto cur repo = .ok v) :
    SemVer.le v cur = false := by
  have hmaj : compare (cur.major + 1) cur.major = Ordering.gt :=
    Nat.compare_eq_gt.mpr (Nat.lt_succ_self _)
  have hmin : compare (cur.minor + 1) cur.minor = Ordering.gt :=
    Nat.compare_eq_gt.mpr (Nat.lt_succ_self _)
  have hpat : compare (cur.patch + 1) cur.patch = Ordering.gt :=
    Nat.compare_eq_gt.mpr (Nat.lt_succ_self _)
  have heqM : compare cur.major cur.major = Ordering.eq :=
    Nat.compare_eq_eq.mpr rfl
  have heqm : compare cur.minor cur.minor = Ordering.eq :=
    Nat.compare_eq_eq.mpr rfl
  simp only [VersionIncrement.bumpVersion] at h
  repeat' split at h
  all_goals try exact Except.noConfusion h
  all_goals injection h with h
  all_goals subst h
  all_goals simp [SemVer.le, SemVer.cmp, hmaj, hmin, hpat, heqM, heqm]

/-- **C2**: whenever the resolved candidate's version is `<=` the
current one, `create_version` and `create_package_version` fail with no
effect at all; inside `create_monorepo_version` the `Auto` candidate is
always strictly greater than the current version (so no guard-violating
pair ever arises there), a package whose candidate nevertheless failed
the guard would make its iteration bail out with no effect for that
package, and a bailed-out first loop makes the whole monorepo
operation fail with a trace containing no commit or tag creation. -/
theorem c2_monotonic_guard (env : Env) (incr : VersionIncrement)
    (preRelease hooksConfig : Option String) (dryRun : Bool) (next : Tag)
    (hpc : preBumpChecks env = .ok ())
    (hbump : (env.repo.latestTag.getD Tag.default).bump incr env.repo = .ok next)
    (hle : SemVer.le next.version
      (env.repo.latestTag.getD Tag.default).version = true) :
    ((createVersion env incr preRelease hooksConfig dryRun).1 = [] ∧
      ∃ e, (createVersion env incr preRelease hooksConfig dryRun).2 = .err e) ∧
    (∀ name nextP,
      ((env.repo.latestPackageTag name).getD Tag.default).bump incr env.repo =
        .ok nextP →
      SemVer.le nextP.version
        ((env.repo.latestPackageTag name).getD Tag.default).version = true →
      (createPackageVersion env name incr preRelease hooksConfig dryRun).1 =
        [] ∧
      ∃ e, (createPackageVersion env name incr preRelease hooksConfig
        dryRun).2 = .err e) ∧
    (∀ name nextV,
      VersionIncrement.bumpVersion .auto
        ((env.repo.latestPackageTag name).getD Tag.default).version env.repo =
        .ok nextV →
      SemVer.le nextV
        ((env.repo.latestPackageTag name).getD Tag.default).version = true →
      monorepoStep env preRelease dryRun name =
        ([], .bail "SemVer Error: version MUST be greater than current one")) ∧
    (∀ name nextV,
      VersionIncrement.bumpVersion .auto
        ((env.repo.latestPackageTag name).getD Tag.default).version env.repo =
        .ok nextV →
      SemVer.le nextV
        ((env.repo.latestPackageTag name).getD Tag.default).version = false) ∧
    (∀ effs msg,
      monorepoLoop env preRelease dryRun env.packages = (effs, .bailed msg) →
      createMonorepoVersion env preRelease hooksConfig dryRun =
        (effs, .err msg) ∧
      ∀ e ∈ effs, isCommitOrTagEffect e = false) := by
  refine ⟨?_, ?_, ?_, ?_, ?_⟩
  · simp only [createVersion, hpc, hbump, hle]
    simp
  · intro name nextP hbumpP hleP
    simp only [createPackageVersion, hpc, hbumpP, hleP]
    simp
  · intro name nextV hbumpV hleV
    simp only [monorepoStep, hbumpV, hleV]
    simp
  · intro name nextV hv
    exact bumpVersion_auto_gt _ env.repo _ hv
  · intro effs msg hloop
    refine ⟨?_, ?_⟩
    · simp only [createMonorepoVersion, hpc, hloop]
    · exact monorepoLoop_no_commit_tag env preRelease dryRun env.packages
        effs _ hloop

/-- A repository whose latest tag is `1.2.3` (package `pkg` at `0.2.0`)
with one bug-fix commit since. -/
def repoTagged : RepoHistory where
  latestTag := some ⟨⟨1, 2, 3, "", ""⟩, none, some 10⟩
  latestPackageTag := fun _ => some ⟨⟨0, 2, 0, "", ""⟩, some "pkg", some 4⟩
  firstCommit := 0
  headCommit := 20
  commitRange := fun _ => [⟨some "fix: y"⟩]
  parseCommit := fun _ => some ⟨.bugFix, false⟩
  packageHasCommits := fun _ => true

/-- A clean single-branch environment over `repoTagged`. -/
def envTagged : Env where
  repo := repoTagged
  statuses := []
  branch := some "main"
  branchWhitelist := []
  globMatch := fun _ _ => false
  packages := ["pkg"]
  hookOutcome := fun _ _ => .ok ()

/-- Witness for C2: a `Manual` request repeating the current `1.2.3`
fails with an empty effect trace. -/
theorem c2_monotonic_guard_witness :
    (createVersion envTagged (.manual "1.2.3") none none false).1 = [] ∧
    ∃ e, (createVersion envTagged (.manual "1.2.3") none none false).2 =
      .err e :=
  (c2_monotonic_guard envTagged (.manual "1.2.3") none none false
    ⟨⟨1, 2, 3, "", ""⟩, none, some 10⟩ rfl rfl (by decide)).1

end Cog

namespace Cog

/-! ## C6: pre-bump hook failure — stash, structured error, abort -/

/-- The second monorepo loop can only finish or propagate a hook error;
it never terminates the process. -/
theorem monorepoPostLoop_not_exited (env : Env) :
    ∀ (bumps : List (String × Tag)) (c : Nat),
      (monorepoPostLoop env bumps).2 ≠ .exited c := by
  intro bumps
  induction bumps with
  | nil => intro c h; exact Outcome.noConfusion h
  | cons b rest ih =>
    intro c h
    rcases b with ⟨name, tag⟩
    unfold monorepoPostLoop at h
    rcases hh : env.hookOutcome .postBump (some name) with e | u
    · rw [hh] at h
      exact Outcome.noConfusion h
    · rw [hh] at h
      rcases hrec : monorepoPostLoop env rest with ⟨reffs, ro⟩
      rw [hrec] at h
      apply ih c
      rw [hrec]
      exact h
/-- **C6**: a failing pre-bump hook makes every bump operation stash
the staged changes under the candidate tag, log a structured error
naming the cause, the candidate and the stash number, and terminate
with exit status 1 before any commit or tag is created; in monorepo
mode a single package's pre-bump hook failure exits the same way, and
any monorepo run that terminates the process has exit status 1 and a
trace without commit or tag creation (in particular no aggregate
commit). -/
theorem c6_prebump_hook_failure (env : Env) (incr : VersionIncrement)
    (preRelease hooksConfig : Option String) (cause : String) (next : Tag)
    (hpc : preBumpChecks env = .ok ())
    (hbump : (env.repo.latestTag.getD Tag.default).bump incr env.repo = .ok next)
    (hgt : SemVer.le next.version
      (env.repo.latestTag.getD Tag.default).version = false)
    (hhook : env.hookOutcome .preBump none = .error cause) :
    (createVersion env incr preRelease hooksConfig false =
      ([.changelogWrite none, .hookRun .preBump none, .stageAll,
        .stashed (Tag.create (applyPre next.version preRelease) none),
        .errorLog cause
          (Tag.create (applyPre next.version preRelease) none).display 0],
       .exited 1)) ∧
    (∀ name nextP,
      ((env.repo.latestPackageTag name).getD Tag.default).bump incr env.repo =
        .ok nextP →
      SemVer.le nextP.version
        ((env.repo.latestPackageTag name).getD Tag.default).version = false →
      env.repo.packageHasCommits name = true →
      env.hookOutcome .preBump (some name) = .error cause →
      createPackageVersion env name incr preRelease hooksConfig false =
        ([.changelogWrite (some name), .hookRun .preBump (some name),
          .stageAll,
          .stashed (Tag.create (applyPre nextP.version preRelease) (some name)),
          .errorLog cause
            (Tag.create (applyPre nextP.version preRelease)
              (some name)).display 0],
         .exited 1)) ∧
    (∀ name nextV,
      VersionIncrement.bumpVersion .auto
        ((env.repo.latestPackageTag name).getD Tag.default).version env.repo =
        .ok nextV →
      SemVer.le nextV
        ((env.repo.latestPackageTag name).getD Tag.default).version = false →
      env.repo.packageHasCommits name = true →
      env.hookOutcome .preBump (some name) = .error cause →
      monorepoStep env preRelease false name =
        ([.changelogWrite (some name), .hookRun .preBump (some name),
          .stageAll,
          .stashed (Tag.create (applyPre nextV preRelease) (some name)),
          .errorLog cause
            (Tag.create (applyPre nextV preRelease) (some name)).display 0],
         .exited)) ∧
    (∀ (pre hooks : Option String) (dry : Bool) (effs : List Effect) (c : Nat),
      createMonorepoVersion env pre hooks dry = (effs, .exited c) →
      c = 1 ∧ ∀ e ∈ effs, isCommitOrTagEffect e = false) := by
  refine ⟨?_, ?_, ?_, ?_⟩
  · simp only [createVersion, hpc, hbump, hgt, hhook, stashFailedVersion]
    simp
  · intro name nextP hbumpP hgtP hhas hhookP
    simp only [createPackageVersion, hpc, hbumpP, hgtP, hhas, hhookP,
      stashFailedVersion]
    simp
  · intro name nextV hbumpV hgtV hhas hhookP
    simp only [monorepoStep, hbumpV, hgtV, hhas, hhookP, stashFailedVersion]
    simp
  · intro pre hooks dry effs c h
    unfold createMonorepoVersion at h
    rcases hpcc : preBumpChecks env with e | u
    · rw [hpcc] at h
      injection h with h1 h2
      exact absurd h2 (fun hh => Outcome.noConfusion hh)
    · cases u
      rcases hloop : monorepoLoop env pre dry env.packages with ⟨leffs, lres⟩
      rcases lres with bumps | msg | _
      · rcases hpost : monorepoPostLoop env bumps with ⟨peffs, po⟩
        simp only [hpcc, hloop, hpost, Prod.mk.injEq] at h
        have hne := monorepoPostLoop_not_exited env bumps c
        rw [hpost] at hne
        exact absurd h.2 hne
      · simp only [hpcc, hloop, Prod.mk.injEq] at h
        exact Outcome.noConfusion h.2
      · simp only [hpcc, hloop, Prod.mk.injEq] at h
        obtain ⟨h1, h2⟩ := h
        subst h1
        refine ⟨?_, ?_⟩
        · injection h2 with hc
          exact hc.symm
        · exact monorepoLoop_no_commit_tag env pre dry env.packages
            leffs _ hloop

/-- An environment over `repoTagged` whose pre-bump hooks fail. -/
def envHookFail : Env where
  repo := repoTagged
  statuses := []
  branch := some "main"
  branchWhitelist := []
  globMatch := fun _ _ => false
  packages := ["pkg"]
  hookOutcome := fun ht _ =>
    match ht with
    | .preBump => .error "hook exited with status 1"
    | .postBump => .ok ()

/-- Witness for C6: a concrete failing pre-bump hook stashes `1.3.0`
and exits with status 1 before any commit or tag. -/
theorem c6_prebump_hook_failure_witness :
    createVersion envHookFail .minor none none false =
      ([.changelogWrite none, .hookRun .preBump none, .stageAll,
        .stashed ⟨⟨1, 3, 0, "", ""⟩, none, none⟩,
        .errorLog "hook exited with status 1" "1.3.0" 0],
       .exited 1) :=
  (c6_prebump_hook_failure envHookFail .minor none none
    "hook exited with status 1" ⟨⟨1, 3, 0, "", ""⟩, none, none⟩
    rfl rfl rfl rfl).1

/-! ## C5: dry runs -/

/-- **C5 (code evaluation at the failing input)**: a monorepo dry run
still creates the aggregate version commit — after printing the
candidate tags the first loop finishes, and `create_monorepo_version`
unconditionally commits `"chore(version): Bump"` — whereas the
repository-wide and package-scoped dry runs stop after printing the
candidate's display tag with no effect. -/
theorem c5_dry_run_evaluation :
    createMonorepoVersion envTagged none none true =
      ([.printed "pkg-0.2.1", .commitCreated "chore(version): Bump"], .ok) ∧
    Effect.commitCreated "chore(version): Bump" ∈
      (createMonorepoVersion envTagged none none true).1 ∧
    createVersion envTagged .minor none none true =
      ([.printed "1.3.0"], .ok) ∧
    createPackageVersion envTagged "pkg" .minor none none true =
      ([.printed "pkg-0.3.0"], .ok) := by
  refine ⟨rfl, ?_, rfl, rfl⟩
  rw [show (createMonorepoVersion envTagged none none true).1 =
    [Effect.printed "pkg-0.2.1",
      Effect.commitCreated "chore(version): Bump"] from rfl]
  simp

end Cog
